import Mathlib

/-!
Verification development for the MiniApp card-submission pipeline.

The submission pipeline lives in two server modules:
  server/telegram-bot.ts   : launch-payload verification and the
                             POST /api/process-card route
  server/services/gemini.ts: image preprocessing and inference-response
                             validation
  server/services/google-sheets.ts : the record store operations

The embedding below translates those functions into executable Lean
definitions.  External collaborators (the crypto primitives from
node:crypto, the sharp image library, the Gemini inference call, the
Google Sheets transport and the JavaScript string builtins) are either
implemented bit-for-bit (SHA-256 / HMAC-SHA256, UTF-8 encoding, hex
encoding, JavaScript trim and join and the \D digit filter) or passed in
as explicit function parameters (the sharp pipeline, the inference call,
JSON parsing of the user field), so that each definition remains a
faithful image of the corresponding source function.
-/

namespace MiniApp

/-! ## SHA-256 and HMAC-SHA256

A byte is a Nat < 256, a word a Nat < 2^32; overflow is explicit via
percent 2^32.  This reimplements what telegram-bot.ts obtains from
node:crypto createHmac("sha256", ...). -/

def w32 (x : Nat) : Nat := x % 4294967296

def rotr32 (n x : Nat) : Nat := w32 ((x >>> n) ||| (x <<< (32 - n)))

def shr32 (n x : Nat) : Nat := x >>> n

def bsig0 (x : Nat) : Nat := (rotr32 2 x) ^^^ (rotr32 13 x) ^^^ (rotr32 22 x)

def bsig1 (x : Nat) : Nat := (rotr32 6 x) ^^^ (rotr32 11 x) ^^^ (rotr32 25 x)

def ssig0 (x : Nat) : Nat := (rotr32 7 x) ^^^ (rotr32 18 x) ^^^ (shr32 3 x)

def ssig1 (x : Nat) : Nat := (rotr32 17 x) ^^^ (rotr32 19 x) ^^^ (shr32 10 x)

def chFn (x y z : Nat) : Nat := (x &&& y) ^^^ ((x ^^^ 4294967295) &&& z)

def majFn (x y z : Nat) : Nat := (x &&& y) ^^^ (x &&& z) ^^^ (y &&& z)

def sha256K : List Nat :=
  [1116352408, 1899447441, 3049323471, 3921009573, 961987163,
   1508970993, 2453635748, 2870763221, 3624381080, 310598401,
   607225278, 1426881987, 1925078388, 2162078206, 2614888103,
   3248222580, 3835390401, 4022224774, 264347078, 604807628,
   770255983, 1249150122, 1555081692, 1996064986, 2554220882,
   2821834349, 2952996808, 3210313671, 3336571891, 3584528711,
   113926993, 338241895, 666307205, 773529912, 1294757372,
   1396182291, 1695183700, 1986661051, 2177026350, 2456956037,
   2730485921, 2820302411, 3259730800, 3345764771, 3516065817,
   3600352804, 4094571909, 275423344, 430227734, 506948616,
   659060556, 883997877, 958139571, 1322822218, 1537002063,
   1747873779, 1955562222, 2024104815, 2227730452, 2361852424,
   2428436474, 2756734187, 3204031479, 3329325298]

structure Sha256State where
  a : Nat
  b : Nat
  c : Nat
  d : Nat
  e : Nat
  f : Nat
  g : Nat
  h : Nat

def sha256Init : Sha256State :=
  ⟨1779033703, 3144134277, 1013904242, 2773480762,
   1359893119, 2600822924, 528734635, 1541459225⟩

/-- One round of the SHA-256 compression function. -/
def sha256Round (s : Sha256State) (kw : Nat × Nat) : Sha256State :=
  let t1 := w32 (s.h + bsig1 s.e + chFn s.e s.f s.g + kw.1 + kw.2)
  let t2 := w32 (bsig0 s.a + majFn s.a s.b s.c)
  ⟨w32 (t1 + t2), s.a, s.b, s.c, w32 (s.d + t1), s.e, s.f, s.g⟩

/-- Extend the 16 block words to the 64-word message schedule.  The
accumulator holds the words most recent first. -/
def sha256Extend : Nat → List Nat → List Nat
  | 0, acc => acc.reverse
  | n + 1, acc =>
      let g := fun i => acc.getD i 0
      let w := w32 (ssig1 (g 1) + g 6 + ssig0 (g 14) + g 15)
      sha256Extend n (w :: acc)

def sha256Schedule (ws : List Nat) : List Nat :=
  sha256Extend 48 ws.reverse

def sha256Compress (st : Sha256State) (ws : List Nat) : Sha256State :=
  let s := ((sha256Schedule ws).zip sha256K).foldl sha256Round st
  ⟨w32 (st.a + s.a), w32 (st.b + s.b), w32 (st.c + s.c), w32 (st.d + s.d),
   w32 (st.e + s.e), w32 (st.f + s.f), w32 (st.g + s.g), w32 (st.h + s.h)⟩

/-- Big-endian 4-byte groups to 32-bit words. -/
def bytesToWords : List Nat → List Nat
  | a :: b :: c :: d :: rest => (((a * 256 + b) * 256 + c) * 256 + d) :: bytesToWords rest
  | _ => []

/-- Group a word list into 16-word blocks. -/
def wordsToBlocks (ws : List Nat) : List (List Nat) :=
  go ws.length ws
where
  go : Nat → List Nat → List (List Nat)
    | 0, _ => []
    | _, [] => []
    | fuel + 1, ws =>
        (ws.take 16) :: go fuel (ws.drop 16)

/-- SHA-256 padding: append 0x80, zero bytes up to 56 mod 64, then the
bit length as 8 big-endian bytes. -/
def sha256Pad (msg : List Nat) : List Nat :=
  let bitLen := msg.length * 8
  let zeros := (120 - ((msg.length + 1) % 64)) % 64
  msg ++ [0x80] ++ List.replicate zeros 0 ++
    ((List.range 8).map fun i => (bitLen >>> (8 * (7 - i))) % 256)

def wordToBytes (w : Nat) : List Nat :=
  [(w >>> 24) % 256, (w >>> 16) % 256, (w >>> 8) % 256, w % 256]

/-- SHA-256 of a byte list. -/
def sha256 (msg : List Nat) : List Nat :=
  let blocks := wordsToBlocks (bytesToWords (sha256Pad msg))
  let st := blocks.foldl sha256Compress sha256Init
  wordToBytes st.a ++ wordToBytes st.b ++ wordToBytes st.c ++ wordToBytes st.d ++
    wordToBytes st.e ++ wordToBytes st.f ++ wordToBytes st.g ++ wordToBytes st.h

/-- HMAC-SHA256 over byte lists, as node:crypto createHmac computes it. -/
def hmacSha256 (key msg : List Nat) : List Nat :=
  let k0 := if 64 < key.length then sha256 key else key
  let k := k0 ++ List.replicate (64 - k0.length) 0
  sha256 ((k.map fun b => b ^^^ 0x5c) ++ sha256 ((k.map fun b => b ^^^ 0x36) ++ msg))

/-- UTF-8 encoding of a character, as Node Buffer/crypto encode string
input. -/
def utf8Char (c : Char) : List Nat :=
  let n := c.toNat
  if n < 0x80 then [n]
  else if n < 0x800 then
    [0xc0 ||| (n >>> 6), 0x80 ||| (n &&& 0x3f)]
  else if n < 0x10000 then
    [0xe0 ||| (n >>> 12), 0x80 ||| ((n >>> 6) &&& 0x3f), 0x80 ||| (n &&& 0x3f)]
  else
    [0xf0 ||| (n >>> 18), 0x80 ||| ((n >>> 12) &&& 0x3f),
     0x80 ||| ((n >>> 6) &&& 0x3f), 0x80 ||| (n &&& 0x3f)]

def strBytes (s : String) : List Nat :=
  (s.data.map utf8Char).flatten

def hexDigit (n : Nat) : Char :=
  if n < 10 then Char.ofNat (48 + n) else Char.ofNat (87 + n)

/-- Lowercase hex encoding of a byte list, as Buffer digest("hex"). -/
def bytesToHex (bs : List Nat) : String :=
  String.mk ((bs.map fun b => [hexDigit (b / 16), hexDigit (b % 16)]).flatten)

/-! ## JavaScript string builtins used by the source

trim, Array.join, Array.sort and String.prototype.localeCompare are
JavaScript builtins; they are modelled here as executable list
functions. -/

/-- Model of the JavaScript whitespace class used by String.prototype.trim
(WhiteSpace and LineTerminator code points; the claims only exercise the
ASCII members). -/
def isJsWhitespace (c : Char) : Bool :=
  c = ' ' || c = '\t' || c = '\n' || c = '\r' ||
  c = Char.ofNat 0x0b || c = Char.ofNat 0x0c || c = Char.ofNat 0xa0 ||
  c = Char.ofNat 0xfeff || c = Char.ofNat 0x2028 || c = Char.ofNat 0x2029

def trimChars (l : List Char) : List Char :=
  ((l.dropWhile isJsWhitespace).reverse.dropWhile isJsWhitespace).reverse

/-- Model of JavaScript String.prototype.trim. -/
def jsTrim (s : String) : String :=
  String.mk (trimChars s.data)

/-- Model of JavaScript Array.prototype.join. -/
def jsJoin (sep : String) : List String → String
  | [] => ""
  | p :: ps => ps.foldl (fun acc q => acc ++ sep ++ q) p

/-- Model of JavaScript String.prototype.startsWith. -/
def jsStartsWith (s pre : String) : Bool :=
  s.data.take pre.data.length == pre.data

/-- Lexicographic comparison of two weight lists. -/
def compareWeights : List Nat → List Nat → Ordering
  | [], [] => .eq
  | [], _ :: _ => .lt
  | _ :: _, [] => .gt
  | a :: as, b :: bs =>
      if a < b then .lt else if b < a then .gt else compareWeights as bs

/-- Primary collation weight: letters compare case-insensitively. -/
def lcPrimary (c : Char) : Nat :=
  if c.isUpper then c.toNat + 32 else c.toNat

/-- Tertiary collation weight: at equal primary weights, lowercase
precedes uppercase. -/
def lcTertiary (c : Char) : Nat :=
  if c.isUpper then 1 else 0

/-- Model of JavaScript String.prototype.localeCompare under the default
ICU collation, at the fidelity the payload keys require: the full string
is compared at the primary level first (letters case-insensitively, with
digits before letters), and ties are broken at the case level with
lowercase first.  In particular, unlike code-unit order,
localeCompare orders the key a before the key B. -/
def localeCompare (a b : String) : Ordering :=
  match compareWeights (a.data.map lcPrimary) (b.data.map lcPrimary) with
  | .eq => compareWeights (a.data.map lcTertiary) (b.data.map lcTertiary)
  | o => o

/-- Code-unit (byte-order) comparison of strings: what the spec means by
sorting keys lexicographically in byte order.  UTF-8 byte order agrees
with code-point order. -/
def byteCompare (a b : String) : Ordering :=
  compareWeights (a.data.map Char.toNat) (b.data.map Char.toNat)

/-- Stable insertion of an element into a list sorted by a comparator:
the element goes before the first entry that is not strictly below it.
This realizes the stable Array.prototype.sort contract. -/
def sortInsert (cmp : α → α → Ordering) (x : α) : List α → List α
  | [] => [x]
  | y :: ys => if cmp y x = .lt then y :: sortInsert cmp x ys else x :: y :: ys

/-- Model of JavaScript Array.prototype.sort with a comparator (a stable
sort ordered by the comparator). -/
def jsSort (cmp : α → α → Ordering) : List α → List α
  | [] => []
  | x :: xs => sortInsert cmp x (jsSort cmp xs)

/-! ## Launch-payload verification (telegram-bot.ts, verifyAndExtractTelegramData)

The initData string is handed to URLSearchParams, a JavaScript builtin
that yields an ordered list of percent-decoded key/value pairs; the
embedding starts from that entry list.  JSON.parse of the user field
is likewise a builtin and is passed in as a parameter. -/

/-- The fields of the Telegram user object the source reads (user.id,
user.username, user.first_name), each possibly absent. -/
structure TgUser where
  id : Option Nat
  username : Option String
  first_name : Option String

structure TGResult where
  valid : Bool
  userId : Option String
  username : Option String
deriving DecidableEq

/-- JavaScript a || b for an optional string, where undefined and the
empty string are falsy. -/
def jsOrStr (a : Option String) (b : String) : String :=
  match a with
  | some s => if s = "" then b else s
  | none => b

/-- First value for a key among the entries (URLSearchParams get). -/
def paramsGet (entries : List (String × String)) (k : String) : Option String :=
  (entries.find? fun p => p.1 == k).map (·.2)

/-- Translation of verifyAndExtractTelegramData (telegram-bot.ts lines
132-173).  entries is the URLSearchParams view of initData; parseUser
models JSON.parse on the user field, returning none when it throws.
The source sorts the remaining entries with a.localeCompare(b), derives
the secret as HMAC-SHA256(key="WebAppData", message=botToken) and
compares the hex HMAC of the joined key=value lines with the hash
field. -/
def verifyAndExtractTelegramData (botToken : String)
    (parseUser : String → Option TgUser)
    (entries : List (String × String)) : TGResult :=
  match paramsGet entries "hash" with
  | none => ⟨false, none, none⟩
  | some hash =>
      let rest := entries.filter fun p => ¬ p.1 == "hash"
      let sorted := jsSort (fun a b => localeCompare a.1 b.1) rest
      let sortedParams := jsJoin "\n" (sorted.map fun p => p.1 ++ "=" ++ p.2)
      let secret := hmacSha256 (strBytes "WebAppData") (strBytes botToken)
      let calculatedHash := bytesToHex (hmacSha256 secret (strBytes sortedParams))
      if calculatedHash ≠ hash then ⟨false, none, none⟩
      else
        match paramsGet rest "user" with
        | none => ⟨false, none, none⟩
        | some userParam =>
            match parseUser userParam with
            | none => ⟨false, none, none⟩
            | some user =>
                ⟨true, user.id.map (fun n => toString n),
                 some (jsOrStr user.username (jsOrStr user.first_name "مستخدم"))⟩

/-- The verifier exactly as the specification words it: identical to
verifyAndExtractTelegramData except that the remaining keys are sorted
lexicographically in byte order.  Used to compare the code against the
spec sentence. -/
def verifySpecByteOrder (botToken : String)
    (parseUser : String → Option TgUser)
    (entries : List (String × String)) : TGResult :=
  match paramsGet entries "hash" with
  | none => ⟨false, none, none⟩
  | some hash =>
      let rest := entries.filter fun p => ¬ p.1 == "hash"
      let sorted := jsSort (fun a b => byteCompare a.1 b.1) rest
      let sortedParams := jsJoin "\n" (sorted.map fun p => p.1 ++ "=" ++ p.2)
      let secret := hmacSha256 (strBytes "WebAppData") (strBytes botToken)
      let calculatedHash := bytesToHex (hmacSha256 secret (strBytes sortedParams))
      if calculatedHash ≠ hash then ⟨false, none, none⟩
      else
        match paramsGet rest "user" with
        | none => ⟨false, none, none⟩
        | some userParam =>
            match parseUser userParam with
            | none => ⟨false, none, none⟩
            | some user =>
                ⟨true, user.id.map (fun n => toString n),
                 some (jsOrStr user.username (jsOrStr user.first_name "مستخدم"))⟩

/-! ## Extraction and validation (services/gemini.ts) -/

/-- The error taxonomy of gemini.ts ERROR_MESSAGES, at the level of the
distinct thrown messages. -/
inductive ErrMsg where
  | parseFailed
  | extractionFailed
  | nameNotFound
  | nationalIdNotFound
  | nationalIdIncomplete (n : Nat)
  | readCardFailed
  | timeout
  | timeoutLong
  | providerFailure (m : String)
deriving DecidableEq

structure ExtractedCardData where
  name : String
  nationalId : String
deriving DecidableEq

/-- The parsed Gemini response shape (gemini.ts GeminiResponse).  The
additionalLines field is optional: the source guards it with
(data.additionalLines || []). -/
structure GeminiResponse where
  firstLine : String
  secondLine : String
  additionalLines : Option (List String)
  nationalId : String
deriving DecidableEq

/-- Translation of data.nationalId.replace(/\D/g, "") (gemini.ts line
364): the JavaScript class \D matches every character other than the
ASCII digits 0-9, so the replacement keeps exactly the ASCII digits. -/
def cleanNationalId (s : String) : String :=
  String.mk (s.data.filter Char.isDigit)

/-- Translation of the response-validation section of processIdCardImage
(gemini.ts lines 326-409): required-field check, line trimming and
filtering, full-name assembly, national-id cleanup and length check. -/
def validateResponse (data : GeminiResponse) : Except ErrMsg ExtractedCardData :=
  if data.firstLine = "" ∨ data.secondLine = "" ∨ data.nationalId = "" then
    .error .extractionFailed
  else
    let firstLine := jsTrim data.firstLine
    let secondLine := jsTrim data.secondLine
    let additionalLines :=
      ((data.additionalLines.getD []).map jsTrim).filter fun l => decide (0 < l.length)
    if firstLine = "" ∨ secondLine = "" then .error .nameNotFound
    else
      let nameParts := [firstLine, secondLine] ++ additionalLines
      let fullName := jsTrim (jsJoin " " nameParts)
      let cleanedNationalId := cleanNationalId data.nationalId
      if cleanedNationalId = "" then .error .nationalIdNotFound
      else if cleanedNationalId.length ≠ 14 then
        .error (.nationalIdIncomplete cleanedNationalId.length)
      else .ok ⟨fullName, cleanedNationalId⟩

/-- Translation of preprocessImage (gemini.ts lines 58-129).  The sharp
pipeline (rotate, resize, sharpen, normalize, modulate, jpeg) is the
external image library; it is passed in as a function returning none
when any step throws, in which case the catch block returns the original
base64 bytes unchanged. -/
def preprocessImage (sharpPipeline : String → Option String)
    (imageBase64 : String) : String :=
  match sharpPipeline imageBase64 with
  | some processed => processed
  | none => imageBase64

/-- Outcome of the awaited generateContent call as the source observes
it: the timeout rejection from withTimeout, an empty response.text, a
response JSON.parse fails on, some other rejection, or a parsed
GeminiResponse. -/
inductive InferOutcome where
  | timeout
  | noText
  | badJson
  | fail (m : String)
  | ok (data : GeminiResponse)

/-- The straight-line handling of an inference outcome inside the try
block of processIdCardImage. -/
def handleInference : InferOutcome → Except ErrMsg ExtractedCardData
  | .timeout => .error .timeout
  | .noText => .error .readCardFailed
  | .badJson => .error .parseFailed
  | .fail m => .error (.providerFailure m)
  | .ok data => validateResponse data

/-- The catch block of processIdCardImage (gemini.ts lines 410-422): a
message carrying the timeout text is rewritten to TIMEOUT_LONG; the
other thrown messages contain neither "timeout" nor "API key" and pass
through unchanged (providerFailure stands for a provider rejection whose
message contains neither). -/
def geminiCatch : Except ErrMsg ExtractedCardData → Except ErrMsg ExtractedCardData
  | .error .timeout => .error .timeoutLong
  | r => r

/-- Translation of processIdCardImage (gemini.ts lines 131-423):
preprocess the image, run inference on the preprocessed bytes, validate,
with the final catch mapping.  infer models the external Gemini call on
the bytes it is given. -/
def processIdCardImage (sharpPipeline : String → Option String)
    (infer : String → InferOutcome) (imageBase64 : String) :
    Except ErrMsg ExtractedCardData :=
  geminiCatch (handleInference (infer (preprocessImage sharpPipeline imageBase64)))

/-! ## The record store (services/google-sheets.ts) and the route
(telegram-bot.ts registerRoutes, POST /api/process-card) -/

/-- A representative row (shared schema Representative). -/
structure Representative where
  userId : String
  username : String
  center : String
  status : String
  dateAdded : String
deriving DecidableEq

/-- A card row (shared schema NationalIdCard). -/
structure NationalIdCard where
  name : String
  nationalId : String
  insertedByUserId : String
  insertedByUsername : String
  center : String
  insertionDate : String
deriving DecidableEq

/-- Translation of getRepresentativeByUserId (google-sheets.ts lines
89-92) over the USERS rows. -/
def getRepresentativeByUserId (reps : List Representative) (userId : String) :
    Option Representative :=
  reps.find? fun r => r.userId == userId

/-- Translation of getCardByNationalId (google-sheets.ts lines 160-163)
over the NATIONAL_ID_DATA rows. -/
def getCardByNationalId (cards : List NationalIdCard) (nationalId : String) :
    Option NationalIdCard :=
  cards.find? fun c => c.nationalId == nationalId

/-- Translation of addCard (google-sheets.ts lines 165-184): an
append-only insert of one row with a server-assigned timestamp. -/
def addCard (cards : List NationalIdCard) (card : NationalIdCard) :
    List NationalIdCard :=
  cards ++ [card]

structure UploadFile where
  mimetype : String
  imageBase64 : String

/-- The JSON responses of POST /api/process-card with their status
codes. -/
inductive CardResponse where
  | invalidSignature
  | noImage
  | notAnImage
  | notAuthorized
  | pipelineError (e : ErrMsg)
  | storageError
  | duplicate (existingCard : NationalIdCard)
  | success (name nationalId : String)
deriving DecidableEq

/-- Translation of the POST /api/process-card handler (telegram-bot.ts
lines 294-357), as a function of the verification result of the initData
payload and of the request state.  readsUp models whether the Google
Sheets read calls succeed (they throw into the catch block when the
transport is down) and writesUp the same for the append; sharpPipeline
and infer are the external collaborators of processIdCardImage; now is
the server-assigned insertion timestamp. -/
def processCard (auth : TGResult) (file : Option UploadFile)
    (reps : List Representative)
    (sharpPipeline : String → Option String) (infer : String → InferOutcome)
    (cards : List NationalIdCard) (readsUp writesUp : Bool) (now : String) :
    CardResponse × List NationalIdCard :=
  match auth with
  | ⟨false, _, _⟩ => (.invalidSignature, cards)
  | ⟨true, none, _⟩ => (.invalidSignature, cards)
  | ⟨true, _, none⟩ => (.invalidSignature, cards)
  | ⟨true, some userId, some username⟩ =>
      if userId = "" ∨ username = "" then (.invalidSignature, cards)
      else match file with
      | none => (.noImage, cards)
      | some f =>
          if ¬ jsStartsWith f.mimetype "image/" then (.notAnImage, cards)
          else if ¬ readsUp then (.storageError, cards)
          else match getRepresentativeByUserId reps userId with
          | none => (.notAuthorized, cards)
          | some rep =>
              if rep.status ≠ "نشط" then (.notAuthorized, cards)
              else match processIdCardImage sharpPipeline infer f.imageBase64 with
              | .error e => (.pipelineError e, cards)
              | .ok extractedData =>
                  match getCardByNationalId cards extractedData.nationalId with
                  | some existing => (.duplicate existing, cards)
                  | none =>
                      if ¬ writesUp then (.storageError, cards)
                      else
                        (.success extractedData.name extractedData.nationalId,
                         addCard cards
                           ⟨extractedData.name, extractedData.nationalId,
                            userId, username, rep.center, now⟩)

/-! ## Helper lemmas on the JavaScript string models -/

theorem data_eq_nil_iff (s : String) : s.data = [] ↔ s = "" := by
  constructor
  · intro h; apply String.ext; simpa using h
  · intro h; simp [h]

theorem head?_dropWhile_not (p : α → Bool) (l : List α) {c : α}
    (h : (l.dropWhile p).head? = some c) : p c = false := by
  induction l with
  | nil => simp [List.dropWhile] at h
  | cons x xs ih =>
      rw [List.dropWhile_cons] at h
      by_cases hx : p x = true
      · rw [if_pos hx] at h; exact ih h
      · rw [if_neg hx] at h
        simp only [List.head?_cons, Option.some.injEq] at h
        subst h; simpa using hx

theorem dropWhile_eq_self_of_head (p : α → Bool) (l : List α)
    (h : ∀ c, l.head? = some c → p c = false) : l.dropWhile p = l := by
  cases l with
  | nil => rfl
  | cons x xs =>
      rw [List.dropWhile_cons, if_neg]
      simp [h x rfl]

theorem trimChars_eq_self (l : List Char)
    (h1 : ∀ c, l.head? = some c → isJsWhitespace c = false)
    (h2 : ∀ c, l.getLast? = some c → isJsWhitespace c = false) :
    trimChars l = l := by
  unfold trimChars
  rw [dropWhile_eq_self_of_head _ _ h1]
  rw [dropWhile_eq_self_of_head _ l.reverse fun c hc => h2 c (by rwa [List.head?_reverse] at hc)]
  exact l.reverse_reverse

theorem trimChars_head_not_ws (l : List Char) {c : Char}
    (h : (trimChars l).head? = some c) : isJsWhitespace c = false := by
  unfold trimChars at h
  set m := l.dropWhile isJsWhitespace with hm
  set r := m.reverse.dropWhile isJsWhitespace with hr
  have hdecomp : m.reverse.takeWhile isJsWhitespace ++ r = m.reverse :=
    List.takeWhile_append_dropWhile _ _
  have hrne : r.reverse ≠ [] := by
    intro he; rw [he] at h; simp at h
  have hmr : m = r.reverse ++ (m.reverse.takeWhile isJsWhitespace).reverse := by
    have := congrArg List.reverse hdecomp
    simpa [List.reverse_append] using this.symm
  have hhead : m.head? = some c := by
    rw [hmr, List.head?_append_of_ne_nil _ hrne]; exact h
  exact head?_dropWhile_not _ l hhead

theorem trimChars_getLast_not_ws (l : List Char) {c : Char}
    (h : (trimChars l).getLast? = some c) : isJsWhitespace c = false := by
  unfold trimChars at h
  rw [List.getLast?_reverse] at h
  exact head?_dropWhile_not _ _ h

theorem jsTrim_data (s : String) : (jsTrim s).data = trimChars s.data := rfl

theorem jsTrim_eq_self (s : String)
    (h1 : ∀ c, s.data.head? = some c → isJsWhitespace c = false)
    (h2 : ∀ c, s.data.getLast? = some c → isJsWhitespace c = false) :
    jsTrim s = s := by
  apply String.ext
  rw [jsTrim_data]
  exact trimChars_eq_self s.data h1 h2

theorem jsJoin_cons_cons (sep p q : String) (qs : List String) :
    jsJoin sep (p :: q :: qs) = jsJoin sep ((p ++ sep ++ q) :: qs) := rfl

theorem jsJoin_cons_data (sep p : String) (ps : List String) :
    (jsJoin sep (p :: ps)).data
      = p.data ++ (ps.map fun q => sep.data ++ q.data).flatten := by
  induction ps generalizing p with
  | nil => simp [jsJoin]
  | cons q qs ih =>
      rw [jsJoin_cons_cons, ih]
      simp [String.data_append]

theorem jsJoin_getLast_not_ws (p : String) (ps : List String)
    (hpl : ∀ c, p.data.getLast? = some c → isJsWhitespace c = false)
    (hps : ∀ q ∈ ps, q.data ≠ [] ∧
      ∀ c, q.data.getLast? = some c → isJsWhitespace c = false) :
    ∀ c, (jsJoin " " (p :: ps)).data.getLast? = some c → isJsWhitespace c = false := by
  induction ps generalizing p with
  | nil =>
      intro c hc
      rw [jsJoin_cons_data] at hc
      simp only [List.map_nil, List.flatten_nil, List.append_nil] at hc
      exact hpl c hc
  | cons q qs ih =>
      intro c hc
      rw [jsJoin_cons_cons] at hc
      have hq := hps q (List.mem_cons_self q qs)
      refine ih (p ++ " " ++ q) ?_ (fun r hr => hps r (List.mem_cons_of_mem q hr)) c hc
      intro d hd
      rw [String.data_append, List.getLast?_append_of_ne_nil _ hq.1] at hd
      exact hq.2 d hd

theorem jsJoin_trim_parts (p : String) (ps : List String)
    (hp : ∃ s0, p = jsTrim s0) (hpne : p ≠ "")
    (hps : ∀ q ∈ ps, (∃ s0, q = jsTrim s0) ∧ q ≠ "") :
    jsTrim (jsJoin " " (p :: ps)) = jsJoin " " (p :: ps) := by
  obtain ⟨s0, rfl⟩ := hp
  have hpd : (jsTrim s0).data ≠ [] := by
    rw [Ne, data_eq_nil_iff]; exact hpne
  apply jsTrim_eq_self
  · intro c hc
    rw [jsJoin_cons_data, List.head?_append_of_ne_nil _ hpd] at hc
    exact trimChars_head_not_ws s0.data hc
  · refine jsJoin_getLast_not_ws _ _ (fun c hc => trimChars_getLast_not_ws s0.data hc) ?_
    intro q hq
    obtain ⟨⟨t0, rfl⟩, hqne⟩ := hps q hq
    refine ⟨by rw [Ne, data_eq_nil_iff]; exact hqne, ?_⟩
    intro c hc
    exact trimChars_getLast_not_ws t0.data hc

/-! ## Claim theorems for the field normalizer and validator -/

/-- C2 (amended): identifier normalization performs no glyph
translation: cleanNationalId keeps exactly the ASCII digits, so an
identifier whose characters are all outside 0-9 (in particular one made
of regional digit glyphs such as Eastern Arabic-Indic digits) normalizes
to the empty string, and the pipeline then fails with the
IdentifierNotFound error rather than passing the length check. -/
theorem cleanNationalId_no_glyph_translation (s : String)
    (h : ∀ c ∈ s.data, c.isDigit = false) :
    cleanNationalId s = "" ∧
    ∀ (fl sl : String) (ad : Option (List String)),
      fl ≠ "" → sl ≠ "" → s ≠ "" → jsTrim fl ≠ "" → jsTrim sl ≠ "" →
      validateResponse ⟨fl, sl, ad, s⟩ = .error .nationalIdNotFound := by
  have hclean : cleanNationalId s = "" := by
    apply String.ext
    show s.data.filter Char.isDigit = ("" : String).data
    rw [List.filter_eq_nil_iff]
    intro a ha
    simp [h a ha]
  refine ⟨hclean, ?_⟩
  intro fl sl ad hfl hsl hs htf hts
  simp only [validateResponse]
  rw [if_neg (by simp [hfl, hsl, hs]), if_neg (by simp [htf, hts]), if_pos hclean]

/-- C2 counterexample: an identifier consisting of exactly 14 Eastern
Arabic-Indic digits does not normalize to the corresponding 14-character
ASCII digit string; it normalizes to the empty string and fails with
IdentifierNotFound instead of passing the length check. -/
theorem cleanNationalId_arabic_digits_cex :
    "٠١٢٣٤٥٦٧٨٩٠١٢٣".length = 14 ∧
    cleanNationalId "٠١٢٣٤٥٦٧٨٩٠١٢٣" = "" ∧
    cleanNationalId "٠١٢٣٤٥٦٧٨٩٠١٢٣" ≠ "01234567890123" ∧
    validateResponse ⟨"Ali", "Hassan Saeed", some [], "٠١٢٣٤٥٦٧٨٩٠١٢٣"⟩
      = .error .nationalIdNotFound := by
  refine ⟨rfl, rfl, by decide, rfl⟩

/-- Witness instantiating cleanNationalId_no_glyph_translation at the
14-digit Eastern Arabic-Indic identifier. -/
theorem cleanNationalId_no_glyph_translation_witness :
    cleanNationalId "٠١٢٣٤٥٦٧٨٩٠١٢٣" = "" ∧
    validateResponse ⟨"Omar", "Hassan Ali", some [], "٠١٢٣٤٥٦٧٨٩٠١٢٣"⟩
      = .error .nationalIdNotFound :=
  ⟨(cleanNationalId_no_glyph_translation _ (by decide)).1,
   (cleanNationalId_no_glyph_translation _ (by decide)).2 "Omar" "Hassan Ali"
     (some []) (by decide) (by decide) (by decide) (by decide) (by decide)⟩

/-- C3 (amended): when the three raw required fields are non-empty, the
NameNotFound error is returned exactly when the trimmed firstLine or the
trimmed secondLine is empty (not exactly when zero non-empty lines
remain), and on success the assembled fullName is the trimmed firstLine,
the trimmed secondLine and the non-empty trimmed additional lines joined
with single spaces in their original top-to-bottom order. -/
theorem name_assembly (d : GeminiResponse)
    (h1 : d.firstLine ≠ "") (h2 : d.secondLine ≠ "") (h3 : d.nationalId ≠ "") :
    (validateResponse d = .error .nameNotFound ↔
      (jsTrim d.firstLine = "" ∨ jsTrim d.secondLine = "")) ∧
    (∀ r, validateResponse d = .ok r →
      r.name = jsJoin " " ([jsTrim d.firstLine, jsTrim d.secondLine] ++
        ((d.additionalLines.getD []).map jsTrim).filter fun l => decide (0 < l.length))) := by
  have hne : ¬ (d.firstLine = "" ∨ d.secondLine = "" ∨ d.nationalId = "") := by
    simp [h1, h2, h3]
  constructor
  · simp only [validateResponse]
    rw [if_neg hne]
    by_cases hfs : jsTrim d.firstLine = "" ∨ jsTrim d.secondLine = ""
    · rw [if_pos hfs]; simpa using hfs
    · rw [if_neg hfs]
      constructor
      · intro h
        split_ifs at h <;> simp_all
      · intro h; exact absurd h hfs
  · intro r hr
    simp only [validateResponse] at hr
    rw [if_neg hne] at hr
    split_ifs at hr with hfs hid hlen
    have hname := congrArg ExtractedCardData.name (Except.ok.inj hr)
    rw [← hname]
    push_neg at hfs
    apply jsJoin_trim_parts
    · exact ⟨d.firstLine, rfl⟩
    · exact hfs.1
    · intro q hq
      simp only [List.append_eq, List.cons_append, List.nil_append, List.mem_cons] at hq
      rcases hq with rfl | hq
      · exact ⟨⟨d.secondLine, rfl⟩, hfs.2⟩
      · rw [List.mem_filter] at hq
        obtain ⟨hq1, hq2⟩ := hq
        rw [List.mem_map] at hq1
        obtain ⟨raw, _, rfl⟩ := hq1
        refine ⟨⟨raw, rfl⟩, ?_⟩
        intro hq0
        rw [hq0] at hq2
        simp at hq2

/-- C3 counterexample: an extraction whose firstLine is whitespace only
and whose secondLine is a real name leaves one non-empty line after
trimming, yet the code returns NameNotFound, against the claim that
NameNotFound occurs exactly when zero non-empty lines remain. -/
theorem name_assembly_cex :
    (["   ", "Hassan Mahmoud Saeed"].map jsTrim).filter
        (fun l => decide (0 < l.length)) ≠ [] ∧
    validateResponse ⟨"   ", "Hassan Mahmoud Saeed", some [], "29501011234567"⟩
      = .error .nameNotFound := by
  refine ⟨by decide, rfl⟩

/-- Witness instantiating name_assembly at the Scenario A extraction,
checking the assembled full name and the absence of NameNotFound. -/
theorem name_assembly_witness :
    validateResponse ⟨"Ali", "Hassan Mahmoud Saeed", some [], "29501011234567"⟩
      ≠ .error .nameNotFound ∧
    ∀ r, validateResponse ⟨"Ali", "Hassan Mahmoud Saeed", some [], "29501011234567"⟩ = .ok r →
      r.name = jsJoin " " [jsTrim "Ali", jsTrim "Hassan Mahmoud Saeed"] :=
  ⟨fun h => by
      have := (name_assembly ⟨"Ali", "Hassan Mahmoud Saeed", some [], "29501011234567"⟩
        (by decide) (by decide) (by decide)).1.mp h
      revert this; decide,
   fun r hr =>
      (name_assembly ⟨"Ali", "Hassan Mahmoud Saeed", some [], "29501011234567"⟩
        (by decide) (by decide) (by decide)).2 r hr⟩

/-- C4: after normalization the identifier contains only ASCII digits
0-9; an empty result fails with IdentifierNotFound, a non-empty result
of length n different from 14 fails with IdentifierIncomplete n, and a
14-digit result passes with no further structural check. -/
theorem identifier_length_validation (d : GeminiResponse)
    (h1 : d.firstLine ≠ "") (h2 : d.secondLine ≠ "") (h3 : d.nationalId ≠ "")
    (h4 : jsTrim d.firstLine ≠ "") (h5 : jsTrim d.secondLine ≠ "") :
    (∀ c ∈ (cleanNationalId d.nationalId).data, '0' ≤ c ∧ c ≤ '9') ∧
    (cleanNationalId d.nationalId = "" →
      validateResponse d = .error .nationalIdNotFound) ∧
    (cleanNationalId d.nationalId ≠ "" →
      (cleanNationalId d.nationalId).length ≠ 14 →
      validateResponse d
        = .error (.nationalIdIncomplete (cleanNationalId d.nationalId).length)) ∧
    ((cleanNationalId d.nationalId).length = 14 →
      ∃ r, validateResponse d = .ok r ∧
        r.nationalId = cleanNationalId d.nationalId) := by
  have hne : ¬ (d.firstLine = "" ∨ d.secondLine = "" ∨ d.nationalId = "") := by
    simp [h1, h2, h3]
  have hts : ¬ (jsTrim d.firstLine = "" ∨ jsTrim d.secondLine = "") := by
    simp [h4, h5]
  refine ⟨?_, ?_, ?_, ?_⟩
  · intro c hc
    have hd : c.isDigit = true := (List.mem_filter.1 hc).2
    simp [Char.isDigit] at hd
    exact ⟨hd.1, hd.2⟩
  · intro h0
    simp only [validateResponse]
    rw [if_neg hne, if_neg hts, if_pos h0]
  · intro h0 h14
    simp only [validateResponse]
    rw [if_neg hne, if_neg hts, if_neg h0, if_pos h14]
  · intro h14
    have h0 : cleanNationalId d.nationalId ≠ "" := by
      intro h; rw [h] at h14; simp at h14
    have hval : validateResponse d = .ok ⟨jsTrim (jsJoin " "
        ([jsTrim d.firstLine, jsTrim d.secondLine] ++
          ((d.additionalLines.getD []).map jsTrim).filter fun l => decide (0 < l.length))),
        cleanNationalId d.nationalId⟩ := by
      simp only [validateResponse]
      rw [if_neg hne, if_neg hts, if_neg h0, if_neg (by simp [h14])]
    exact ⟨_, hval, rfl⟩

/-- Witness instantiating identifier_length_validation at a Scenario C
style input whose identifier keeps 13 digits, and at a 14-digit one. -/
theorem identifier_length_validation_witness :
    validateResponse ⟨"Ali", "Hassan Saeed", some [], "2950101123456"⟩
      = .error (.nationalIdIncomplete 13) ∧
    ∃ r, validateResponse ⟨"Ali", "Hassan Saeed", some [], "29501011234567"⟩
      = .ok r ∧ r.nationalId = cleanNationalId "29501011234567" :=
  ⟨by
    have := (identifier_length_validation ⟨"Ali", "Hassan Saeed", some [], "2950101123456"⟩
      (by decide) (by decide) (by decide) (by decide) (by decide)).2.2.1
      (by decide) (by decide)
    simpa using this,
   (identifier_length_validation ⟨"Ali", "Hassan Saeed", some [], "29501011234567"⟩
      (by decide) (by decide) (by decide) (by decide) (by decide)).2.2.2 (by decide)⟩

/-- C10 (amended): an absent additionalLines array is treated exactly as
an explicit empty array, and the ExtractionFailed error is triggered
precisely when firstLine, secondLine or nationalId is missing or empty;
an input with those three fields non-empty can still fail with a later
validation error, but never with ExtractionFailed. -/
theorem additionalLines_absent_as_empty (d : GeminiResponse) :
    validateResponse { d with additionalLines := none }
      = validateResponse { d with additionalLines := some [] } ∧
    (validateResponse d = .error .extractionFailed ↔
      (d.firstLine = "" ∨ d.secondLine = "" ∨ d.nationalId = "")) := by
  constructor
  · rfl
  · simp only [validateResponse]
    by_cases h : d.firstLine = "" ∨ d.secondLine = "" ∨ d.nationalId = ""
    · rw [if_pos h]; simpa using h
    · rw [if_neg h]
      constructor
      · intro hr
        split_ifs at hr <;> simp_all
      · intro hr; exact absurd hr h

/-- C10 counterexample: a response whose firstLine, secondLine and
nationalId are all present and non-empty, with additionalLines absent,
on which extraction does not succeed (it fails with IdentifierNotFound),
against the claim that such responses succeed. -/
theorem additionalLines_absent_cex :
    (GeminiResponse.mk "Ali" "Hassan" none "abc").firstLine ≠ "" ∧
    (GeminiResponse.mk "Ali" "Hassan" none "abc").secondLine ≠ "" ∧
    (GeminiResponse.mk "Ali" "Hassan" none "abc").nationalId ≠ "" ∧
    validateResponse ⟨"Ali", "Hassan", none, "abc"⟩ = .error .nationalIdNotFound := by
  refine ⟨by decide, by decide, by decide, rfl⟩

/-- C8: a failing sharp pipeline never fails the overall extraction: the
preprocessor returns the original bytes unchanged, the pipeline proceeds
to inference with exactly those original bytes, and the outcome equals
the outcome with a preprocessor that succeeds without modifying the
image, so no normalizer failure surfaces as a pipeline error. -/
theorem preprocess_failure_recovered (imageBase64 : String)
    (sharpPipeline : String → Option String) (infer : String → InferOutcome)
    (hfail : sharpPipeline imageBase64 = none) :
    preprocessImage sharpPipeline imageBase64 = imageBase64 ∧
    processIdCardImage sharpPipeline infer imageBase64
      = geminiCatch (handleInference (infer imageBase64)) ∧
    processIdCardImage sharpPipeline infer imageBase64
      = processIdCardImage (fun b => some b) infer imageBase64 := by
  have hp : preprocessImage sharpPipeline imageBase64 = imageBase64 := by
    simp [preprocessImage, hfail]
  exact ⟨hp, by simp [processIdCardImage, preprocessImage, hfail],
    by simp [processIdCardImage, preprocessImage, hfail]⟩

/-- Witness instantiating preprocess_failure_recovered at an always
failing sharp pipeline and a concrete inference outcome. -/
theorem preprocess_failure_recovered_witness :
    preprocessImage (fun _ => none) "imgbytes" = "imgbytes" ∧
    processIdCardImage (fun _ => none)
      (fun _ => .ok ⟨"Ali", "Hassan Saeed", some [], "29501011234567"⟩) "imgbytes"
      = geminiCatch (handleInference
          (.ok ⟨"Ali", "Hassan Saeed", some [], "29501011234567"⟩)) :=
  ⟨(preprocess_failure_recovered "imgbytes" (fun _ => none)
      (fun _ => .ok ⟨"Ali", "Hassan Saeed", some [], "29501011234567"⟩) rfl).1,
   (preprocess_failure_recovered "imgbytes" (fun _ => none)
      (fun _ => .ok ⟨"Ali", "Hassan Saeed", some [], "29501011234567"⟩) rfl).2.1⟩

/-! ## Claim theorems for the route -/

/-- C6: a submission whose payload verified but whose caller resolves to
no representative, or to one whose status is not active, is rejected
with the 403 authorization error, leaves the store unchanged, and the
result does not depend on the preprocessing or inference collaborators,
so neither extraction nor any insert is performed. -/
theorem inactive_agent_rejected (uid uname : String) (f : UploadFile)
    (reps : List Representative) (cards : List NationalIdCard)
    (writesUp : Bool) (now : String)
    (hu : uid ≠ "") (hn : uname ≠ "")
    (hf : jsStartsWith f.mimetype "image/" = true)
    (hrep : getRepresentativeByUserId reps uid = none ∨
      ∃ rep, getRepresentativeByUserId reps uid = some rep ∧ rep.status ≠ "نشط") :
    ∀ (sharpPipeline : String → Option String) (infer : String → InferOutcome),
      processCard ⟨true, some uid, some uname⟩ (some f) reps sharpPipeline infer
        cards true writesUp now = (.notAuthorized, cards) := by
  intro sp infer
  rcases hrep with h | ⟨rep, h, hs⟩
  · simp [processCard, hu, hn, hf, h]
  · simp [processCard, hu, hn, hf, h, hs]

/-- Witness instantiating inactive_agent_rejected at a concrete inactive
representative. -/
theorem inactive_agent_rejected_witness :
    processCard ⟨true, some "42", some "omar"⟩
      (some ⟨"image/jpeg", "IMG"⟩)
      [⟨"42", "omar", "طما", "غير نشط", "2024-01-01"⟩]
      (fun b => some b) (fun _ => .ok ⟨"Ali", "Hassan", some [], "29501011234567"⟩)
      [] true true "2024-01-02" = (.notAuthorized, []) :=
  inactive_agent_rejected "42" "omar" ⟨"image/jpeg", "IMG"⟩
    [⟨"42", "omar", "طما", "غير نشط", "2024-01-01"⟩] [] true "2024-01-02"
    (by decide) (by decide) (by decide)
    (Or.inr ⟨⟨"42", "omar", "طما", "غير نشط", "2024-01-01"⟩, by decide, by decide⟩)
    (fun b => some b) (fun _ => .ok ⟨"Ali", "Hassan", some [], "29501011234567"⟩)

/-- C5: when a record with the extracted identifier is already in the
store, a later submission extracting the same identifier returns the
duplicate response carrying an existing record with that identifier and
leaves the store unchanged, performing no second insert. -/
theorem duplicate_short_circuit (uid uname : String) (f : UploadFile)
    (reps : List Representative) (rep : Representative)
    (sharpPipeline : String → Option String) (infer : String → InferOutcome)
    (cards : List NationalIdCard) (writesUp : Bool) (now : String)
    (ed : ExtractedCardData) (X : String)
    (hu : uid ≠ "") (hn : uname ≠ "")
    (hf : jsStartsWith f.mimetype "image/" = true)
    (hrep : getRepresentativeByUserId reps uid = some rep)
    (hact : rep.status = "نشط")
    (hex : processIdCardImage sharpPipeline infer f.imageBase64 = .ok ed)
    (hX : ed.nationalId = X)
    (hmem : ∃ c ∈ cards, c.nationalId = X) :
    ∃ existingCard,
      processCard ⟨true, some uid, some uname⟩ (some f) reps
          sharpPipeline infer cards true writesUp now
        = (.duplicate existingCard, cards) ∧ existingCard.nationalId = X := by
  have hsome : (getCardByNationalId cards X).isSome := by
    rw [getCardByNationalId, List.find?_isSome]
    obtain ⟨c, hc, hc2⟩ := hmem
    exact ⟨c, hc, by simp [hc2]⟩
  obtain ⟨existingCard, hfind⟩ := Option.isSome_iff_exists.1 hsome
  have hid : existingCard.nationalId = X := by
    have := List.find?_some hfind
    simpa using this
  refine ⟨existingCard, ?_, hid⟩
  simp [processCard, hu, hn, hf, hrep, hact, hex, hX, hfind]

/-- Witness instantiating duplicate_short_circuit: resubmitting the
Scenario A identifier after its record exists yields the duplicate
response and no second insert. -/
theorem duplicate_short_circuit_witness :
    ∃ existingCard,
      processCard ⟨true, some "42", some "omar"⟩ (some ⟨"image/jpeg", "IMG"⟩)
          [⟨"42", "omar", "طما", "نشط", "2024-01-01"⟩]
          (fun b => some b)
          (fun _ => .ok ⟨"Ali", "Hassan Mahmoud Saeed", some [], "29501011234567"⟩)
          [⟨"Ali Hassan Mahmoud Saeed", "29501011234567", "42", "omar", "طما", "2024-01-01"⟩]
          true true "2024-01-02"
        = (.duplicate existingCard,
           [⟨"Ali Hassan Mahmoud Saeed", "29501011234567", "42", "omar", "طما", "2024-01-01"⟩]) ∧
      existingCard.nationalId = "29501011234567" :=
  duplicate_short_circuit "42" "omar" ⟨"image/jpeg", "IMG"⟩
    [⟨"42", "omar", "طما", "نشط", "2024-01-01"⟩]
    ⟨"42", "omar", "طما", "نشط", "2024-01-01"⟩
    (fun b => some b)
    (fun _ => .ok ⟨"Ali", "Hassan Mahmoud Saeed", some [], "29501011234567"⟩)
    [⟨"Ali Hassan Mahmoud Saeed", "29501011234567", "42", "omar", "طما", "2024-01-01"⟩]
    true "2024-01-02"
    ⟨"Ali Hassan Mahmoud Saeed", "29501011234567"⟩ "29501011234567"
    (by decide) (by decide) (by decide) (by decide) (by decide) rfl rfl
    ⟨⟨"Ali Hassan Mahmoud Saeed", "29501011234567", "42", "omar", "طما", "2024-01-01"⟩,
     by decide, rfl⟩

/-- C7: for every submission, either the pipeline returns the success
response and exactly one record is appended to the store, or the
response is not the success response and the store is unchanged; in
particular every failure leaves the store unchanged and no partial
commit exists. -/
theorem commit_iff_success (auth : TGResult) (file : Option UploadFile)
    (reps : List Representative) (sharpPipeline : String → Option String)
    (infer : String → InferOutcome) (cards : List NationalIdCard)
    (readsUp writesUp : Bool) (now : String) :
    (∃ rec, processCard auth file reps sharpPipeline infer cards readsUp writesUp now
        = (.success rec.name rec.nationalId, cards ++ [rec]))
    ∨ ((processCard auth file reps sharpPipeline infer cards readsUp writesUp now).2
         = cards ∧
       ∀ n i, (processCard auth file reps sharpPipeline infer cards readsUp writesUp now).1
         ≠ .success n i) := by
  unfold processCard
  split
  · exact Or.inr ⟨rfl, by simp⟩
  · exact Or.inr ⟨rfl, by simp⟩
  · exact Or.inr ⟨rfl, by simp⟩
  · split
    · exact Or.inr ⟨rfl, by simp⟩
    · split
      · exact Or.inr ⟨rfl, by simp⟩
      · split
        · exact Or.inr ⟨rfl, by simp⟩
        · split
          · exact Or.inr ⟨rfl, by simp⟩
          · split
            · exact Or.inr ⟨rfl, by simp⟩
            · split
              · exact Or.inr ⟨rfl, by simp⟩
              · split
                · exact Or.inr ⟨rfl, by simp⟩
                · split
                  · exact Or.inr ⟨rfl, by simp⟩
                  · split
                    · exact Or.inr ⟨rfl, by simp⟩
                    · exact Or.inl ⟨⟨_, _, _, _, _, _⟩, rfl⟩

/-! ## Claim theorems for the launch authenticator -/

/-- The decoded user field of the key-order counterexample payload: a
well-formed JSON object (braces written as escapes), which JSON.parse
accepts, carrying id 7 and first_name alice and no username. -/
def cexUserJson : String := "\x7b\"id\":7,\"first_name\":\"alice\"\x7d"

/-- JSON.parse model at the values the launch-authenticator theorems
exercise, faithful there to the JavaScript builtin: the well-formed user
object cexUserJson parses to id 7 with first_name alice and no
username; any other string is treated as not parsing (a bare
non-JSON string makes JSON.parse throw, which the catch block of
verifyAndExtractTelegramData turns into a rejection). -/
def cexParseUser : String → Option TgUser :=
  fun s => if s = cexUserJson then some ⟨some 7, none, some "alice"⟩ else none

/-- The derived signing key for the counterexample bot token. -/
def cexSecret : List Nat := hmacSha256 (strBytes "WebAppData") (strBytes "T")

/-- The canonical string the code builds for the counterexample payload:
its keys a, B, user sort as a, B, user under localeCompare but as
B, a, user in byte order. -/
def cexCanonical : String := "a=1\nB=2\nuser=" ++ cexUserJson

/-- The hex HMAC of the canonical string the code builds for the
counterexample payload. -/
def cexHash : String := bytesToHex (hmacSha256 cexSecret (strBytes cexCanonical))

def cexEntries : List (String × String) :=
  [("a", "1"), ("B", "2"), ("user", cexUserJson), ("hash", cexHash)]

set_option maxRecDepth 100000 in
/-- C1 counterexample: a payload with a hash field and a user field
holding a well-formed JSON identity that verification accepts, although
the hex HMAC of the canonical string built with byte-order key sorting
does not equal its hash field: the byte-order verifier of the claim
rejects the very payload the code accepts, because the code sorts keys
with localeCompare. -/
theorem verify_not_byte_order_cex :
    paramsGet cexEntries "hash" = some cexHash ∧
    cexParseUser cexUserJson = some ⟨some 7, none, some "alice"⟩ ∧
    verifyAndExtractTelegramData "T" cexParseUser cexEntries
      = ⟨true, some "7", some "alice"⟩ ∧
    verifySpecByteOrder "T" cexParseUser cexEntries = ⟨false, none, none⟩ :=
  ⟨rfl, rfl, rfl, rfl⟩

/-- C1 (amended): verification accepts exactly when the payload carries
a hash field, the hex HMAC-SHA256 under the derived key of the canonical
string - built by removing the hash field and sorting the remaining keys
with the locale-aware comparison of JavaScript localeCompare, not byte
order - equals that hash field, and the user identity claim is present
and parses; so any parse failure, missing signature, missing identity
claim, or mismatch is rejected with no other acceptance path.  On every
payload whose remaining keys sort identically under the locale order and
byte order (for example the all-lowercase keys of real Telegram
payloads) the code moreover agrees with the byte-order verifier of the
spec sentence. -/
theorem verify_accept_characterization (botToken : String)
    (parseUser : String → Option TgUser) (entries : List (String × String)) :
    ((verifyAndExtractTelegramData botToken parseUser entries).valid = true ↔
      (∃ hash userParam user,
        paramsGet entries "hash" = some hash ∧
        bytesToHex (hmacSha256 (hmacSha256 (strBytes "WebAppData") (strBytes botToken))
          (strBytes (jsJoin "\n"
            ((jsSort (fun a b => localeCompare a.1 b.1)
              (entries.filter fun p => ¬ p.1 == "hash")).map
                fun p => p.1 ++ "=" ++ p.2)))) = hash ∧
        paramsGet (entries.filter fun p => ¬ p.1 == "hash") "user" = some userParam ∧
        parseUser userParam = some user)) ∧
    (jsSort (fun a b => localeCompare a.1 b.1)
          (entries.filter fun p => ¬ p.1 == "hash")
        = jsSort (fun a b => byteCompare a.1 b.1)
          (entries.filter fun p => ¬ p.1 == "hash") →
      verifyAndExtractTelegramData botToken parseUser entries
        = verifySpecByteOrder botToken parseUser entries) := by
  constructor
  · simp only [verifyAndExtractTelegramData]
    split
    next hph =>
      simp [hph]
    next hash hph =>
      split
      next hne =>
        constructor
        · intro hv; simp at hv
        · rintro ⟨hash2, userParam, user, hh, hmac, _, _⟩
          rw [hph] at hh
          injection hh with hh
          subst hh
          exact absurd hmac hne
      next hne =>
        split
        next hpu =>
          constructor
          · intro hv; simp at hv
          · rintro ⟨hash2, userParam, user, hh, hmac, hu, hp⟩
            rw [hpu] at hu
            cases hu
        next userParam hpu =>
          split
          next hp2 =>
            constructor
            · intro hv; simp at hv
            · rintro ⟨hash2, userParam2, user, hh, hmac, hu, hp⟩
              rw [hpu] at hu
              injection hu with hu
              subst hu
              rw [hp2] at hp
              cases hp
          next user hp2 =>
            constructor
            · intro _
              exact ⟨hash, userParam, user, hph, not_not.mp hne, hpu, hp2⟩
            · intro _
              rfl
  · intro h
    simp only [verifyAndExtractTelegramData, verifySpecByteOrder, h]

/-- The hex HMAC of the canonical string of the witness payload, whose
lowercase keys auth and user sort identically under localeCompare and
byte order. -/
def wHash : String :=
  bytesToHex (hmacSha256 cexSecret (strBytes ("auth=A\nuser=" ++ cexUserJson)))

set_option maxRecDepth 100000 in
/-- Witness instantiating verify_accept_characterization at a correctly
signed payload with lowercase keys: the acceptance direction of the iff
at its concrete verifying data, and the agreement with the byte-order
verifier under the discharged sort-agreement hypothesis. -/
theorem verify_accept_characterization_witness :
    (verifyAndExtractTelegramData "T" cexParseUser
        [("auth", "A"), ("user", cexUserJson), ("hash", wHash)]).valid = true ∧
    verifyAndExtractTelegramData "T" cexParseUser
        [("auth", "A"), ("user", cexUserJson), ("hash", wHash)]
      = verifySpecByteOrder "T" cexParseUser
        [("auth", "A"), ("user", cexUserJson), ("hash", wHash)] :=
  ⟨(verify_accept_characterization "T" cexParseUser
      [("auth", "A"), ("user", cexUserJson), ("hash", wHash)]).1.mpr
    ⟨wHash, cexUserJson, ⟨some 7, none, some "alice"⟩, rfl, rfl, rfl, rfl⟩,
   (verify_accept_characterization "T" cexParseUser
      [("auth", "A"), ("user", cexUserJson), ("hash", wHash)]).2 (by decide)⟩

end MiniApp
